import Mathlib

/-!
Verification of the autoSmoke real-time control subsystem.

Shallow embedding of the relevant source components, faithful to the Python
sources:

* `src/backend/core/pid.py`            — discrete PID with bumpless transfer;
* `src/backend/core/controller.py`     — thermostat control and relay dwell
  timing (`_thermostat_control`, `_apply_relay_with_timing`);
* `src/backend/core/phase_manager.py`  — phase completion conditions and the
  temperature-stability check (`check_phase_conditions`,
  `_check_temperature_stability`);
* `src/backend/core/alerts.py`         — alert creation, clearing and the 5 s
  debounce (`_create_alert`, `_clear_alert`, `clear_alert`).

Machine floats are modelled as rationals; wall-clock time (`time.time()` /
`datetime.utcnow()`) is an explicit input of every step function.
-/

namespace AutoSmoke

/-! ## PID controller (src/backend/core/pid.py)

State of `PIDController`.  `last_time`, `last_setpoint` and `last_gains` are
`None` after `__init__`/`reset`, hence `Option`.  Gains and limits are the
constructor fields. -/

/-- Python's binary `min` on numbers (ties keep the first argument). -/
def pymin (a b : ℚ) : ℚ := if b < a then b else a

/-- Python's binary `max` on numbers (ties keep the first argument). -/
def pymax (a b : ℚ) : ℚ := if a < b then b else a

structure PIDState where
  kp : ℚ
  ki : ℚ
  kd : ℚ
  output_min : ℚ
  output_max : ℚ
  integral_limit : ℚ
  last_error : ℚ
  integral : ℚ
  last_time : Option ℚ
  last_output : ℚ
  last_setpoint : Option ℚ
  last_gains : Option (ℚ × ℚ × ℚ)
  deriving Repr, DecidableEq

/-- Constructor defaults of `PIDController.__init__` (output range [0,100],
integral limit 100, all state zeroed, option fields `None`). -/
def pidInit (kp ki kd : ℚ) : PIDState :=
  { kp := kp, ki := ki, kd := kd
    output_min := 0, output_max := 100, integral_limit := 100
    last_error := 0, integral := 0, last_time := none
    last_output := 0, last_setpoint := none, last_gains := none }

/-- Embedding of `PIDController._bumpless_transfer`: returns the re-seeded
(and clamped) integral.  Mirrors the source exactly, including the
`if self._last_error != 0 else 0` guard on the derivative part and the
absence of any division by `dt`. -/
def bumplessTransfer (s : PIDState) (error : ℚ) : ℚ :=
  let newProportional := s.kp * error
  let newDerivative := if s.last_error ≠ 0 then s.kd * (error - s.last_error) else 0
  let desiredIntegral := s.last_output - newProportional - newDerivative
  let integral := if s.ki ≠ 0 then desiredIntegral / s.ki else 0
  pymax (-s.integral_limit) (pymin s.integral_limit integral)

/-- Embedding of `PIDController.compute`.  `current_time` stands for the
source's `time.time()` call.  Returns the output together with the updated
state. -/
def pidCompute (s : PIDState) (setpoint current_value current_time : ℚ) :
    ℚ × PIDState :=
  match s.last_time with
  | none =>
      (s.last_output,
        { s with last_time := some current_time, last_setpoint := some setpoint,
                 last_gains := some (s.kp, s.ki, s.kd) })
  | some t0 =>
      let dt := current_time - t0
      if dt ≤ 0 then (s.last_output, s)
      else
        let error := setpoint - current_value
        let s1 :=
          if s.last_setpoint ≠ some setpoint ∨ s.last_gains ≠ some (s.kp, s.ki, s.kd) then
            { s with integral := bumplessTransfer s error,
                     last_setpoint := some setpoint,
                     last_gains := some (s.kp, s.ki, s.kd) }
          else s
        let proportional := s1.kp * error
        let integral2 := pymax (-s1.integral_limit) (pymin s1.integral_limit (s1.integral + error * dt))
        let integralTerm := s1.ki * integral2
        let derivative := s1.kd * (error - s1.last_error) / dt
        let output := proportional + integralTerm + derivative
        let output2 := pymax s1.output_min (pymin s1.output_max output)
        (output2,
          { s1 with integral := integral2, last_error := error,
                    last_time := some current_time, last_output := output2 })

/-- The derivative part used by the source's bumpless seeding: the source
computes `self.kd * (error - self._last_error)` guarded by
`if self._last_error != 0 else 0`, with no division by `dt`. -/
def dSeed (s : PIDState) (error : ℚ) : ℚ :=
  if s.last_error ≠ 0 then s.kd * (error - s.last_error) else 0

/-- The unclamped integrator value the source's bumpless transfer seeds when
`ki ≠ 0`: `(prev_output − Kp·error − dSeed) / Ki`. -/
def rawSeed (s : PIDState) (error : ℚ) : ℚ :=
  (s.last_output - s.kp * error - dSeed s error) / s.ki

/-- Modelled from the claim's words (spec §4.4), for comparison against the
source's `_bumpless_transfer`: re-seed the integrator to
`I := (prev_output − P_new − D_new) / Ki_new` with `P_new = Kp_new·error`
and `D_new = Kd_new·(error − prev_error)/dt` the proportional and derivative
terms under the new parameters (`I := 0` when `Ki_new = 0`), then clamp to
`±integral_limit`. -/
def specReseedIntegral (s : PIDState) (error dt : ℚ) : ℚ :=
  let pNew := s.kp * error
  let dNew := s.kd * (error - s.last_error) / dt
  let seed := if s.ki ≠ 0 then (s.last_output - pNew - dNew) / s.ki else 0
  pymax (-s.integral_limit) (pymin s.integral_limit seed)

/-- A PID state one tick after a gain change: gains now `(1, 1, 1)` while
`last_gains = (2, 1, 1)`, previous output 5, previous error 1, previous tick
at `t = 1`. -/
def c3WitnessState : PIDState :=
  { kp := 1, ki := 1, kd := 1, output_min := 0, output_max := 100
    integral_limit := 100, last_error := 1, integral := 0, last_time := some 1
    last_output := 5, last_setpoint := some 10, last_gains := some (2, 1, 1) }

/-! ## Thermostat control and relay dwell timing (src/backend/core/controller.py)

`ThermoState` is the slice of `SmokerController` state touched by
`_thermostat_control` and `_apply_relay_with_timing`: the control intent
`output_bool`, the actual `relay_state`, and the `last_on_time` /
`last_off_time` stamps (both `None` after `__init__`). -/

structure ThermoParams where
  setpoint_c : ℚ
  hyst_c : ℚ
  min_on_s : ℚ
  min_off_s : ℚ
  deriving Repr, DecidableEq

structure ThermoState where
  output_bool : Bool
  relay_state : Bool
  pid_output : ℚ
  last_on_time : Option ℚ
  last_off_time : Option ℚ
  deriving Repr, DecidableEq

/-- Controller state after `__init__`: relay off, no dwell stamps. -/
def thermoInit : ThermoState :=
  { output_bool := false, relay_state := false, pid_output := 0
    last_on_time := none, last_off_time := none }

/-- Python truthiness of an optional float (`if self.last_off_time and ...`):
`None` and `0.0` are falsy. -/
def optTruthy : Option ℚ → Bool
  | none => false
  | some t => t ≠ 0

/-- Embedding of `SmokerController._apply_relay_with_timing`.  `now` stands
for the source's `time.time()` call. -/
def applyRelayWithTiming (p : ThermoParams) (s : ThermoState)
    (desired_state : Bool) (now : ℚ) : ThermoState :=
  if desired_state ∧ ¬s.relay_state then
    -- want to turn ON
    if optTruthy s.last_off_time ∧ now - (s.last_off_time.getD 0) < p.min_off_s then
      s  -- haven't been off long enough
    else
      { s with relay_state := true, last_on_time := some now }
  else if ¬desired_state ∧ s.relay_state then
    -- want to turn OFF
    if optTruthy s.last_on_time ∧ now - (s.last_on_time.getD 0) < p.min_on_s then
      s  -- haven't been on long enough
    else
      { s with relay_state := false, last_off_time := some now }
  else s

/-- Embedding of `SmokerController._thermostat_control`: hysteresis decision
on the intent bit, then dwell-limited relay application. -/
def thermostatControl (p : ThermoParams) (s : ThermoState) (now temp_c : ℚ) :
    ThermoState :=
  let desired :=
    if s.output_bool then temp_c < p.setpoint_c + p.hyst_c
    else temp_c < p.setpoint_c - p.hyst_c
  let s1 := { s with output_bool := desired, pid_output := if desired then 100 else 0 }
  applyRelayWithTiming p s1 desired now

/-- What a thermostat-mode control tick sees on the control channel: either
a healthy reading, or a fault (`control_temp_c is None or control_fault` in
`_control_iteration`). -/
inductive ControlInput where
  | reading (temp_c : ℚ)
  | fault
  deriving Repr, DecidableEq

/-- One thermostat-mode control tick of `SmokerController._control_iteration`
(boost and auto-tune inactive).  A healthy reading runs
`_thermostat_control`; a control-sensor fault takes the early-return branch
that commands the relay OFF directly — setting `relay_state` and
`output_bool` to false with no dwell check and no `last_off_time` stamp —
and skips the rest of the tick. -/
def controlTick (p : ThermoParams) (s : ThermoState) (now : ℚ) :
    ControlInput → ThermoState
  | .reading temp_c => thermostatControl p s now temp_c
  | .fault => { s with relay_state := false, output_bool := false }

/-- Fold a list of `(time, input)` thermostat-mode control ticks. -/
def controlRun (p : ThermoParams) (s : ThermoState)
    (l : List (ℚ × ControlInput)) : ThermoState :=
  l.foldl (fun st x => controlTick p st x.1 x.2) s

/-- Scenario-S1 style settings: setpoint 100 °C, hysteresis 2 °C, minimum
dwell 5 s either way. -/
def s1Params : ThermoParams :=
  { setpoint_c := 100, hyst_c := 2, min_on_s := 5, min_off_s := 5 }

/-- A concrete 1 Hz thermostat trace of healthy readings: heat-up, overshoot
at `t = 6` (relay OFF), then below-band temperatures; the relay may come
back ON only once the 5 s minimum-off dwell has elapsed. -/
def s1Trace : List (ℚ × ControlInput) :=
  [(1, .reading 96), (2, .reading 96), (3, .reading 96), (4, .reading 96),
   (5, .reading 96), (6, .reading 103), (7, .reading 97), (8, .reading 97),
   (9, .reading 97), (10, .reading 97), (11, .reading 97)]

/-- A thermostat trace with a sensor fault: the relay goes ON at `t = 1`,
the fault tick at `t = 2` forces it OFF after only 1 s, and the healthy
tick at `t = 3` turns it back ON after another 1 s (no `last_off_time` was
ever stamped). -/
def c2FaultTrace : List (ℚ × ControlInput) :=
  [(1, .reading 96), (2, .fault), (3, .reading 96)]

/-! ## Phase state machine (src/backend/core/phase_manager.py)

`PhaseManager._check_temperature_stability` keeps, per smoke session, a
`deque(maxlen=100)` of `(timestamp, temp_f)` pairs; `check_phase_conditions`
evaluates the completion-condition bag in order max-duration, stability,
meat threshold.  Timestamps stand for `datetime.utcnow()` in seconds. -/

/-- A Python `deque(maxlen=100)` append: when full, the leftmost (oldest)
entries are discarded. -/
def dequeAppend100 (h : List (ℚ × ℚ)) (x : ℚ × ℚ) : List (ℚ × ℚ) :=
  (if h.length < 100 then h else h.drop (h.length - 99)) ++ [x]

/-- Embedding of `PhaseManager._check_temperature_stability`.  Appends the
current reading, trims entries older than the window, then requires the
oldest retained entry to be at least `duration_minutes * 60` seconds old and
every retained temperature to lie within `target ± range`.  Returns the
verdict together with the updated history. -/
def checkTemperatureStability (h : List (ℚ × ℚ))
    (now current_temp_f target_temp_f range_f : ℚ) (duration_minutes : ℚ) :
    Bool × List (ℚ × ℚ) :=
  let h1 := dequeAppend100 h (now, current_temp_f)
  let cutoff := now - duration_minutes * 60
  let h2 := h1.dropWhile (fun p => p.1 < cutoff)
  match h2.head? with
  | none => (false, h2)
  | some oldest =>
      if now - oldest.1 < duration_minutes * 60 then (false, h2)
      else
        let min_temp := target_temp_f - range_f
        let max_temp := target_temp_f + range_f
        (h2.all (fun p => ¬(p.2 < min_temp ∨ max_temp < p.2)), h2)

/-- The completion-condition bag of a phase (`completion_conditions` JSON):
any subset of the three condition families may be present. -/
structure PhaseConditions where
  max_duration_min : Option ℚ
  stability_range_f : Option ℚ
  stability_duration_min : Option ℚ
  meat_temp_threshold_f : Option ℚ
  deriving Repr, DecidableEq

/-- Embedding of `PhaseManager.check_phase_conditions` for an active phase:
max-duration first, then temperature stability (which mutates the stability
history), then the meat-probe threshold.  Returns whether some condition was
met, together with the updated stability history. -/
def checkPhaseConditions (cond : PhaseConditions) (started_at target_temp_f : ℚ)
    (h : List (ℚ × ℚ)) (now current_temp_f : ℚ) (meat_temp_f : Option ℚ) :
    Bool × List (ℚ × ℚ) :=
  let phase_duration_minutes := (now - started_at) / 60
  let durMet :=
    match cond.max_duration_min with
    | some m => decide (phase_duration_minutes ≥ m)
    | none => false
  if durMet then (true, h)
  else
    let meatMet :=
      match cond.meat_temp_threshold_f, meat_temp_f with
      | some th, some m => decide (m ≥ th)
      | _, _ => false
    match cond.stability_range_f, cond.stability_duration_min with
    | some r, some d =>
        let st := checkTemperatureStability h now current_temp_f target_temp_f r d
        if st.1 then (true, st.2) else (meatMet, st.2)
    | _, _ => (meatMet, h)

/-- One control tick of `SmokerController._check_phase_conditions` for an
active, unpaused phase: when the smoke is already pending a transition the
evaluation is skipped entirely (the stability history is not even updated);
otherwise the conditions are evaluated and, when met,
`request_phase_transition` sets `pending_phase_transition`. -/
def phaseTick (cond : PhaseConditions) (started_at target_temp_f : ℚ)
    (st : Bool × List (ℚ × ℚ)) (now current_temp_f : ℚ) (meat_temp_f : Option ℚ) :
    Bool × List (ℚ × ℚ) :=
  if st.1 then st
  else checkPhaseConditions cond started_at target_temp_f st.2 now current_temp_f meat_temp_f

/-- Scenario S5's condition bag: `{stability_range_f: 5,
stability_duration_min: 2}`. -/
def s5Conditions : PhaseConditions :=
  { max_duration_min := none, stability_range_f := some 5
    stability_duration_min := some 2, meat_temp_threshold_f := none }

/-- Scenario S5 run: phase `preheat` started at `t = 0` with target 270 °F,
control temperature pinned at 270 °F (inside the ±5 °F band), evaluated at
1 Hz.  `s5Run n` is the `(pending_phase_transition, stability_history)` pair
after the ticks at `t = 0, 1, …, n` seconds. -/
def s5Run : ℕ → Bool × List (ℚ × ℚ)
  | 0 => phaseTick s5Conditions 0 270 (false, []) 0 270 none
  | n + 1 => phaseTick s5Conditions 0 270 (s5Run n) (n + 1 : ℕ) 270 none

/-- The stability history consisting of the in-range samples at the integer
times `k, k+1, …, k+len-1`, all at 270 °F. -/
def s5Window (k len : ℕ) : List (ℚ × ℚ) :=
  (List.range' k len).map (fun (i : ℕ) => ((i : ℚ), (270 : ℚ)))

/-! ## Alert engine (src/backend/core/alerts.py)

Per alert key, the relevant `AlertManager` state is whether the key has an
entry in `active_alerts` and its entry in `debounce_timers` (set on creation,
deleted by the automatic `_clear_alert`, left in place by the manual
`clear_alert`).  We also log the creation timestamps of the successive
idle→active transitions, newest first.  Each engine step is driven by the
outcome of the key's predicate on the tick's status snapshot (condition
active / condition inactive) or by a manual clear request. -/

structure AlertKeyState where
  isActive : Bool
  debounce : Option ℚ
  creations : List ℚ
  deriving Repr, DecidableEq

/-- Alert-manager state for a key at boot: no active alert, no debounce
timer, no creations yet. -/
def alertInit : AlertKeyState :=
  { isActive := false, debounce := none, creations := [] }

/-- One engine step for a key, at time `now` (the source's
`datetime.utcnow()`). -/
inductive AlertEvent where
  /-- The key's active predicate holds on this tick's snapshot (e.g.
  `temp_c >= threshold` for `high_temp`): the checker calls `_create_alert`
  unless the key is already active. -/
  | condActive
  /-- The key's predicate fails: the checker calls `_clear_alert`. -/
  | condInactive
  /-- Manual `clear_alert(alert_id)` on the key's active row. -/
  | manualClear
  deriving Repr, DecidableEq

/-- Embedding of `AlertManager._create_alert` for one key: debounced row
creation.  Inside the 5 s debounce window nothing happens; otherwise an
active row is inserted and the debounce timer is stamped. -/
def createAlert (s : AlertKeyState) (now : ℚ) : AlertKeyState :=
  match s.debounce with
  | some t =>
      if now - t < 5 then s  -- still in debounce period
      else { isActive := true, debounce := some now, creations := now :: s.creations }
  | none => { isActive := true, debounce := some now, creations := now :: s.creations }

/-- One alert-engine step for a key.  `condActive` mirrors the checker
pattern `if alert_key not in self.active_alerts: _create_alert(...)`;
`condInactive` mirrors `_clear_alert` (which deletes the debounce timer);
`manualClear` mirrors `clear_alert` (which leaves the debounce timer in
place). -/
def alertStep (s : AlertKeyState) (now : ℚ) : AlertEvent → AlertKeyState
  | .condActive => if s.isActive then s else createAlert s now
  | .condInactive =>
      if s.isActive then { s with isActive := false, debounce := none } else s
  | .manualClear =>
      if s.isActive then { s with isActive := false } else s

/-- Fold a list of timed events through the engine. -/
def alertRun (s : AlertKeyState) (l : List (ℚ × AlertEvent)) : AlertKeyState :=
  l.foldl (fun st x => alertStep st x.1 x.2) s

/-! ## Dwell-invariant lemmas for the thermostat path -/

/-- State reached after the first `k` ticks of a thermostat-mode control
trace. -/
def stateAt (p : ThermoParams) (s0 : ThermoState) (l : List (ℚ × ControlInput))
    (k : ℕ) : ThermoState :=
  controlRun p s0 (l.take k)

theorem relay_on_off_sets_lastOff (p : ThermoParams) (s : ThermoState)
    (d : Bool) (now : ℚ) (hs : s.relay_state = true)
    (hn : (applyRelayWithTiming p s d now).relay_state = false) :
    (applyRelayWithTiming p s d now).last_off_time = some now := by
  unfold applyRelayWithTiming at *
  split_ifs at * <;> simp_all

theorem relay_stays_off_keeps_lastOff (p : ThermoParams) (s : ThermoState)
    (d : Bool) (now : ℚ) (hs : s.relay_state = false)
    (hn : (applyRelayWithTiming p s d now).relay_state = false) :
    (applyRelayWithTiming p s d now).last_off_time = s.last_off_time := by
  unfold applyRelayWithTiming at *
  split_ifs at * <;> simp_all

theorem relay_off_on_guard (p : ThermoParams) (s : ThermoState)
    (d : Bool) (now t : ℚ) (hs : s.relay_state = false)
    (hn : (applyRelayWithTiming p s d now).relay_state = true)
    (ht : s.last_off_time = some t) (ht0 : t ≠ 0) :
    p.min_off_s ≤ now - t := by
  unfold applyRelayWithTiming at hn
  rw [ht] at hn
  split_ifs at hn <;> simp_all [optTruthy]

theorem relay_off_on_sets_lastOn (p : ThermoParams) (s : ThermoState)
    (d : Bool) (now : ℚ) (hs : s.relay_state = false)
    (hn : (applyRelayWithTiming p s d now).relay_state = true) :
    (applyRelayWithTiming p s d now).last_on_time = some now := by
  unfold applyRelayWithTiming at *
  split_ifs at * <;> simp_all

theorem relay_stays_on_keeps_lastOn (p : ThermoParams) (s : ThermoState)
    (d : Bool) (now : ℚ) (hs : s.relay_state = true)
    (hn : (applyRelayWithTiming p s d now).relay_state = true) :
    (applyRelayWithTiming p s d now).last_on_time = s.last_on_time := by
  unfold applyRelayWithTiming at *
  split_ifs at * <;> simp_all

theorem relay_on_off_guard (p : ThermoParams) (s : ThermoState)
    (d : Bool) (now t : ℚ) (hs : s.relay_state = true)
    (hn : (applyRelayWithTiming p s d now).relay_state = false)
    (ht : s.last_on_time = some t) (ht0 : t ≠ 0) :
    p.min_on_s ≤ now - t := by
  unfold applyRelayWithTiming at hn
  rw [ht] at hn
  split_ifs at hn <;> simp_all [optTruthy]

theorem thermostatControl_as_apply (p : ThermoParams) (s : ThermoState)
    (now temp : ℚ) :
    ∃ d s1, thermostatControl p s now temp = applyRelayWithTiming p s1 d now ∧
      s1.relay_state = s.relay_state ∧ s1.last_on_time = s.last_on_time ∧
      s1.last_off_time = s.last_off_time := by
  refine ⟨_, _, rfl, rfl, rfl, rfl⟩

theorem stateAt_succ (p : ThermoParams) (s0 : ThermoState)
    (l : List (ℚ × ControlInput)) (k : ℕ) (hk : k < l.length) :
    stateAt p s0 l (k + 1) =
      controlTick p (stateAt p s0 l k) (l.getD k (0, ControlInput.fault)).1
        (l.getD k (0, ControlInput.fault)).2 := by
  unfold stateAt controlRun
  rw [List.take_succ, List.foldl_append]
  have h : l[k]? = some (l.getD k (0, ControlInput.fault)) := by
    rw [List.getD_eq_getElem l (0, ControlInput.fault) hk]
    exact List.getElem?_eq_getElem hk
  rw [h]
  rfl

theorem tstep_on_off_sets (p : ThermoParams) (s : ThermoState) (now temp : ℚ)
    (hs : s.relay_state = true)
    (hn : (thermostatControl p s now temp).relay_state = false) :
    (thermostatControl p s now temp).last_off_time = some now := by
  simp only [thermostatControl] at hn ⊢
  exact relay_on_off_sets_lastOff _ _ _ _ (by simpa using hs) hn

theorem tstep_stays_off (p : ThermoParams) (s : ThermoState) (now temp : ℚ)
    (hs : s.relay_state = false)
    (hn : (thermostatControl p s now temp).relay_state = false) :
    (thermostatControl p s now temp).last_off_time = s.last_off_time := by
  simp only [thermostatControl] at hn ⊢
  exact relay_stays_off_keeps_lastOff _ _ _ _ (by simpa using hs) hn

theorem tstep_off_on_guard (p : ThermoParams) (s : ThermoState) (now temp t : ℚ)
    (hs : s.relay_state = false)
    (hn : (thermostatControl p s now temp).relay_state = true)
    (ht : s.last_off_time = some t) (ht0 : t ≠ 0) :
    p.min_off_s ≤ now - t := by
  simp only [thermostatControl] at hn
  exact relay_off_on_guard _ _ _ _ _ (by simpa using hs) hn (by simpa using ht) ht0

theorem tstep_off_on_sets (p : ThermoParams) (s : ThermoState) (now temp : ℚ)
    (hs : s.relay_state = false)
    (hn : (thermostatControl p s now temp).relay_state = true) :
    (thermostatControl p s now temp).last_on_time = some now := by
  simp only [thermostatControl] at hn ⊢
  exact relay_off_on_sets_lastOn _ _ _ _ (by simpa using hs) hn

theorem tstep_stays_on (p : ThermoParams) (s : ThermoState) (now temp : ℚ)
    (hs : s.relay_state = true)
    (hn : (thermostatControl p s now temp).relay_state = true) :
    (thermostatControl p s now temp).last_on_time = s.last_on_time := by
  simp only [thermostatControl] at hn ⊢
  exact relay_stays_on_keeps_lastOn _ _ _ _ (by simpa using hs) hn

theorem tstep_on_off_guard (p : ThermoParams) (s : ThermoState) (now temp t : ℚ)
    (hs : s.relay_state = true)
    (hn : (thermostatControl p s now temp).relay_state = false)
    (ht : s.last_on_time = some t) (ht0 : t ≠ 0) :
    p.min_on_s ≤ now - t := by
  simp only [thermostatControl] at hn
  exact relay_on_off_guard _ _ _ _ _ (by simpa using hs) hn (by simpa using ht) ht0

theorem cstep_stays_off (p : ThermoParams) (s : ThermoState) (now : ℚ)
    (inp : ControlInput) (hs : s.relay_state = false)
    (hn : (controlTick p s now inp).relay_state = false) :
    (controlTick p s now inp).last_off_time = s.last_off_time := by
  cases inp with
  | fault => rfl
  | reading temp => exact tstep_stays_off p s now temp hs hn

theorem cstep_stays_on (p : ThermoParams) (s : ThermoState) (now : ℚ)
    (inp : ControlInput) (hs : s.relay_state = true)
    (hn : (controlTick p s now inp).relay_state = true) :
    (controlTick p s now inp).last_on_time = s.last_on_time := by
  cases inp with
  | fault => simp [controlTick] at hn
  | reading temp => exact tstep_stays_on p s now temp hs hn

theorem cstep_on_off_sets (p : ThermoParams) (s : ThermoState) (now : ℚ)
    (inp : ControlInput) (hs : s.relay_state = true)
    (hn : (controlTick p s now inp).relay_state = false)
    (hr : inp ≠ ControlInput.fault) :
    (controlTick p s now inp).last_off_time = some now := by
  cases inp with
  | fault => exact absurd rfl hr
  | reading temp => exact tstep_on_off_sets p s now temp hs hn

theorem cstep_off_on_sets (p : ThermoParams) (s : ThermoState) (now : ℚ)
    (inp : ControlInput) (hs : s.relay_state = false)
    (hn : (controlTick p s now inp).relay_state = true) :
    (controlTick p s now inp).last_on_time = some now := by
  cases inp with
  | fault => simp [controlTick] at hn
  | reading temp => exact tstep_off_on_sets p s now temp hs hn

theorem cstep_off_on_guard (p : ThermoParams) (s : ThermoState) (now t : ℚ)
    (inp : ControlInput) (hs : s.relay_state = false)
    (hn : (controlTick p s now inp).relay_state = true)
    (ht : s.last_off_time = some t) (ht0 : t ≠ 0) :
    p.min_off_s ≤ now - t := by
  cases inp with
  | fault => simp [controlTick] at hn
  | reading temp => exact tstep_off_on_guard p s now temp t hs hn ht ht0

theorem cstep_on_off_guard (p : ThermoParams) (s : ThermoState) (now t : ℚ)
    (inp : ControlInput) (hs : s.relay_state = true)
    (hn : (controlTick p s now inp).relay_state = false)
    (hr : inp ≠ ControlInput.fault)
    (ht : s.last_on_time = some t) (ht0 : t ≠ 0) :
    p.min_on_s ≤ now - t := by
  cases inp with
  | fault => exact absurd rfl hr
  | reading temp => exact tstep_on_off_guard p s now temp t hs hn ht ht0

theorem lastOff_stable_of_off (p : ThermoParams) (s0 : ThermoState)
    (l : List (ℚ × ControlInput)) (a : ℕ) :
    ∀ b, a ≤ b → b ≤ l.length →
      (∀ k, a ≤ k → k ≤ b → (stateAt p s0 l k).relay_state = false) →
      (stateAt p s0 l b).last_off_time = (stateAt p s0 l a).last_off_time := by
  intro b
  induction b with
  | zero => intro hab _ _; rw [Nat.le_zero.mp hab]
  | succ n ih =>
      intro hab hb hoff
      rcases Nat.lt_or_ge a (n + 1) with h | h
      · have han : a ≤ n := Nat.lt_succ_iff.mp h
        have hstep := stateAt_succ p s0 l n (Nat.lt_of_succ_le hb)
        have hkeep := cstep_stays_off p (stateAt p s0 l n)
          (l.getD n (0, ControlInput.fault)).1 (l.getD n (0, ControlInput.fault)).2
          (hoff n han (Nat.le_succ n))
          (by rw [← hstep]; exact hoff (n + 1) hab (le_refl _))
        rw [hstep, hkeep]
        exact ih han (Nat.le_of_succ_le hb)
          (fun k hk1 hk2 => hoff k hk1 (Nat.le_succ_of_le hk2))
      · rw [Nat.le_antisymm hab h]

theorem lastOn_stable_of_on (p : ThermoParams) (s0 : ThermoState)
    (l : List (ℚ × ControlInput)) (a : ℕ) :
    ∀ b, a ≤ b → b ≤ l.length →
      (∀ k, a ≤ k → k ≤ b → (stateAt p s0 l k).relay_state = true) →
      (stateAt p s0 l b).last_on_time = (stateAt p s0 l a).last_on_time := by
  intro b
  induction b with
  | zero => intro hab _ _; rw [Nat.le_zero.mp hab]
  | succ n ih =>
      intro hab hb hon
      rcases Nat.lt_or_ge a (n + 1) with h | h
      · have han : a ≤ n := Nat.lt_succ_iff.mp h
        have hstep := stateAt_succ p s0 l n (Nat.lt_of_succ_le hb)
        have hkeep := cstep_stays_on p (stateAt p s0 l n)
          (l.getD n (0, ControlInput.fault)).1 (l.getD n (0, ControlInput.fault)).2
          (hon n han (Nat.le_succ n))
          (by rw [← hstep]; exact hon (n + 1) hab (le_refl _))
        rw [hstep, hkeep]
        exact ih han (Nat.le_of_succ_le hb)
          (fun k hk1 hk2 => hon k hk1 (Nat.le_succ_of_le hk2))
      · rw [Nat.le_antisymm hab h]

theorem trace_time_pos (l : List (ℚ × ControlInput)) (hpos : ∀ x ∈ l, 0 < x.1)
    (k : ℕ) (hk : k < l.length) : 0 < (l.getD k (0, ControlInput.fault)).1 := by
  rw [List.getD_eq_getElem l (0, ControlInput.fault) hk]
  exact hpos _ (List.getElem_mem hk)

/-- C2 counterexample.  In thermostat mode with S1 settings (min_on 5 s,
min_off 5 s), run the trace: healthy reading 96 °C at `t = 1` (relay
OFF→ON), control-sensor fault at `t = 2`, healthy reading 96 °C at `t = 3`.
The fault tick takes the early-return branch of `_control_iteration`, which
forces `relay_state = False` directly: the ON→OFF switch happens only 1 s
after the OFF→ON switch (violating min_on_s = 5), and because that branch
never stamps `last_off_time`, the tick at `t = 3` switches the relay back ON
only 1 s later (violating min_off_s = 5).  So both dwell bounds of the
claim fail on a thermostat-mode trace that contains a fault tick. -/
theorem C2_thermostat_dwell_counterexample :
    (stateAt s1Params thermoInit c2FaultTrace 0).relay_state = false ∧
    (stateAt s1Params thermoInit c2FaultTrace 1).relay_state = true ∧
    (stateAt s1Params thermoInit c2FaultTrace 2).relay_state = false ∧
    (stateAt s1Params thermoInit c2FaultTrace 3).relay_state = true ∧
    (c2FaultTrace.getD 1 (0, ControlInput.fault)).1
        - (c2FaultTrace.getD 0 (0, ControlInput.fault)).1 < s1Params.min_on_s ∧
    (c2FaultTrace.getD 2 (0, ControlInput.fault)).1
        - (c2FaultTrace.getD 1 (0, ControlInput.fault)).1 < s1Params.min_off_s := by
  refine ⟨?_, ?_, ?_, ?_, ?_, ?_⟩ <;>
    norm_num [stateAt, controlRun, controlTick, thermostatControl,
      applyRelayWithTiming, optTruthy, thermoInit, s1Params, c2FaultTrace]

/-- C2 (amended): in thermostat mode (boost and auto-tune inactive), along
any trace of control ticks with positive wall-clock timestamps, whenever the
relay switches ON→OFF at tick `i` *under the thermostat law* (tick `i` has a
healthy control reading) and next switches OFF→ON at tick `j` (staying OFF
in between, sensor-fault ticks allowed), the two switch times are at least
`min_off_s` apart; symmetrically, an OFF→ON switch at `i` followed by the
next ON→OFF switch at `j` under the thermostat law is at least `min_on_s`
later.  A sensor-fault tick forces the relay OFF immediately — bypassing
`min_on_s` and leaving `last_off_time` unstamped, so the turn-ON after it is
not held off; the dwell bounds therefore hold exactly when the switching-OFF
tick is a healthy thermostat tick (a fault tick can never switch the relay
ON, so no such proviso is needed on the turn-ON side). -/
theorem C2_thermostat_dwell_amended (p : ThermoParams) (s0 : ThermoState)
    (l : List (ℚ × ControlInput)) (hpos : ∀ x ∈ l, 0 < x.1) (i j : ℕ)
    (hij : i < j) (hj : j < l.length) :
    ((l.getD i (0, ControlInput.fault)).2 ≠ ControlInput.fault ∧
      (stateAt p s0 l i).relay_state = true ∧
      (∀ k, i < k → k ≤ j → (stateAt p s0 l k).relay_state = false) ∧
      (stateAt p s0 l (j + 1)).relay_state = true →
        p.min_off_s ≤ (l.getD j (0, ControlInput.fault)).1
          - (l.getD i (0, ControlInput.fault)).1) ∧
    ((l.getD j (0, ControlInput.fault)).2 ≠ ControlInput.fault ∧
      (stateAt p s0 l i).relay_state = false ∧
      (∀ k, i < k → k ≤ j → (stateAt p s0 l k).relay_state = true) ∧
      (stateAt p s0 l (j + 1)).relay_state = false →
        p.min_on_s ≤ (l.getD j (0, ControlInput.fault)).1
          - (l.getD i (0, ControlInput.fault)).1) := by
  have hi : i < l.length := Nat.lt_trans hij hj
  constructor
  · rintro ⟨hri, hon, hoff, hback⟩
    have hstepi := stateAt_succ p s0 l i hi
    have hoffi1 : (stateAt p s0 l (i + 1)).relay_state = false :=
      hoff (i + 1) (Nat.lt_succ_of_le (le_refl i)) (Nat.succ_le_of_lt hij)
    have hset : (stateAt p s0 l (i + 1)).last_off_time
        = some (l.getD i (0, ControlInput.fault)).1 := by
      rw [hstepi]
      exact cstep_on_off_sets p _ _ _ hon (by rw [← hstepi]; exact hoffi1) hri
    have hstable : (stateAt p s0 l j).last_off_time
        = (stateAt p s0 l (i + 1)).last_off_time :=
      lastOff_stable_of_off p s0 l (i + 1) j (Nat.succ_le_of_lt hij) (Nat.le_of_lt hj)
        (fun k hk1 hk2 => hoff k (Nat.lt_of_succ_le hk1) hk2)
    have hstepj := stateAt_succ p s0 l j hj
    have hti : (0 : ℚ) < (l.getD i (0, ControlInput.fault)).1 := trace_time_pos l hpos i hi
    refine cstep_off_on_guard p (stateAt p s0 l j) (l.getD j (0, ControlInput.fault)).1
      (l.getD i (0, ControlInput.fault)).1 (l.getD j (0, ControlInput.fault)).2
      (hoff j hij (le_refl j))
      (by rw [← hstepj]; exact hback)
      (by rw [hstable, hset]) (ne_of_gt hti)
  · rintro ⟨hrj, hoff0, hon, hback⟩
    have hstepi := stateAt_succ p s0 l i hi
    have honi1 : (stateAt p s0 l (i + 1)).relay_state = true :=
      hon (i + 1) (Nat.lt_succ_of_le (le_refl i)) (Nat.succ_le_of_lt hij)
    have hset : (stateAt p s0 l (i + 1)).last_on_time
        = some (l.getD i (0, ControlInput.fault)).1 := by
      rw [hstepi]
      exact cstep_off_on_sets p _ _ _ hoff0 (by rw [← hstepi]; exact honi1)
    have hstable : (stateAt p s0 l j).last_on_time
        = (stateAt p s0 l (i + 1)).last_on_time :=
      lastOn_stable_of_on p s0 l (i + 1) j (Nat.succ_le_of_lt hij) (Nat.le_of_lt hj)
        (fun k hk1 hk2 => hon k (Nat.lt_of_succ_le hk1) hk2)
    have hstepj := stateAt_succ p s0 l j hj
    have hti : (0 : ℚ) < (l.getD i (0, ControlInput.fault)).1 := trace_time_pos l hpos i hi
    refine cstep_on_off_guard p (stateAt p s0 l j) (l.getD j (0, ControlInput.fault)).1
      (l.getD i (0, ControlInput.fault)).1 (l.getD j (0, ControlInput.fault)).2
      (hon j hij (le_refl j))
      (by rw [← hstepj]; exact hback) hrj
      (by rw [hstable, hset]) (ne_of_gt hti)

/-- Witness for the amended C2 on the S1-style healthy trace: the relay is
ON after tick 5, switches OFF at tick index 5 (time 6, a healthy reading),
stays OFF through tick 10, switches back ON at tick index 10 (time 11), and
the dwell bound `5 ≤ 11 - 6` follows from the amended dwell theorem. -/
theorem C2_thermostat_dwell_amended_witness :
    (stateAt s1Params thermoInit s1Trace 5).relay_state = true ∧
    (stateAt s1Params thermoInit s1Trace 11).relay_state = true ∧
    s1Params.min_off_s ≤ (s1Trace.getD 10 (0, ControlInput.fault)).1
      - (s1Trace.getD 5 (0, ControlInput.fault)).1 := by
  refine ⟨?_, ?_, ?_⟩
  · norm_num [stateAt, controlRun, controlTick, thermostatControl,
      applyRelayWithTiming, optTruthy, thermoInit, s1Params, s1Trace]
  · norm_num [stateAt, controlRun, controlTick, thermostatControl,
      applyRelayWithTiming, optTruthy, thermoInit, s1Params, s1Trace]
  · refine (C2_thermostat_dwell_amended s1Params thermoInit s1Trace ?_ 5 10
      (by norm_num) (by norm_num [s1Trace])).1 ⟨?_, ?_, ?_, ?_⟩
    · intro x hx
      simp only [s1Trace, List.mem_cons, List.not_mem_nil, or_false] at hx
      rcases hx with h | h | h | h | h | h | h | h | h | h | h <;> norm_num [h]
    · simp [s1Trace]
    · norm_num [stateAt, controlRun, controlTick, thermostatControl,
        applyRelayWithTiming, optTruthy, thermoInit, s1Params, s1Trace]
    · intro k hk1 hk2
      interval_cases k <;>
        norm_num [stateAt, controlRun, controlTick, thermostatControl,
          applyRelayWithTiming, optTruthy, thermoInit, s1Params, s1Trace]
    · norm_num [stateAt, controlRun, controlTick, thermostatControl,
        applyRelayWithTiming, optTruthy, thermoInit, s1Params, s1Trace]

/-! ## C1: the S5 stability scenario -/

theorem s5Window_length (k len : ℕ) : (s5Window k len).length = len := by
  rw [s5Window, List.length_map]
  simp

theorem s5Window_cons (k len : ℕ) :
    s5Window k (len + 1) = ((k : ℚ), (270 : ℚ)) :: s5Window (k + 1) len := by
  simp [s5Window, List.range'_succ]

theorem s5Window_concat (k len : ℕ) :
    s5Window k (len + 1) = s5Window k len ++ [(((k + len : ℕ) : ℚ), (270 : ℚ))] := by
  simp [s5Window, List.range'_1_concat]

theorem s5_append_of_lt (k len n : ℕ) (hk : k + len = n + 1) (hc : len < 100) :
    dequeAppend100 (s5Window k len) (((n + 1 : ℕ) : ℚ), 270) = s5Window k (len + 1) := by
  unfold dequeAppend100
  rw [if_pos (by simpa [s5Window_length] using hc)]
  have h1 : ((n + 1 : ℕ) : ℚ) = ((k + len : ℕ) : ℚ) := by rw [hk]
  rw [h1, ← s5Window_concat]

theorem s5_append_of_eq (k n : ℕ) (hk : k + 100 = n + 1) :
    dequeAppend100 (s5Window k 100) (((n + 1 : ℕ) : ℚ), 270) = s5Window (k + 1) 100 := by
  unfold dequeAppend100
  rw [if_neg (by simp [s5Window_length]), s5Window_length]
  have hd : (s5Window k 100).drop (100 - 99) = s5Window (k + 1) 99 := by
    rw [show (100 : ℕ) = 99 + 1 from rfl, s5Window_cons]
    rfl
  rw [hd]
  have h1 : ((n + 1 : ℕ) : ℚ) = (((k + 1) + 99 : ℕ) : ℚ) := by
    congr 1
    omega
  rw [h1, ← s5Window_concat]

theorem s5_stability_eval (h : List (ℚ × ℚ)) (n k len : ℕ)
    (hk : k + len = n + 2) (hlen1 : 1 ≤ len) (hlen100 : len ≤ 100)
    (happ : dequeAppend100 h (((n + 1 : ℕ) : ℚ), 270) = s5Window k len) :
    checkTemperatureStability h ((n + 1 : ℕ) : ℚ) 270 270 5 2 = (false, s5Window k len) := by
  obtain ⟨m, rfl⟩ : ∃ m, len = m + 1 := ⟨len - 1, by omega⟩
  have hkq : (k : ℚ) + (m : ℚ) = (n : ℚ) + 1 := by
    have : k + m = n + 1 := by omega
    exact_mod_cast congrArg (fun x : ℕ => (x : ℚ)) this
  have hm99 : (m : ℚ) ≤ 99 := by
    exact_mod_cast (by omega : m ≤ 99)
  simp only [checkTemperatureStability, happ, s5Window_cons, List.dropWhile_cons]
  have hnot : ¬ ((k : ℚ) < ((n + 1 : ℕ) : ℚ) - 2 * 60) := by
    push_cast
    linarith
  rw [if_neg (by simpa using hnot)]
  simp only [List.head?_cons]
  have hlt : ((n + 1 : ℕ) : ℚ) - (k : ℚ) < 2 * 60 := by
    push_cast
    linarith
  rw [if_pos hlt, ← s5Window_cons]

theorem s5_stability_step (n k len : ℕ) (hk : k + len = n + 1)
    (hlen1 : 1 ≤ len) (hlen100 : len ≤ 100) :
    ∃ k' len',
      checkTemperatureStability (s5Window k len) ((n + 1 : ℕ) : ℚ) 270 270 5 2
          = (false, s5Window k' len') ∧
        k' + len' = n + 2 ∧ 1 ≤ len' ∧ len' ≤ 100 := by
  rcases Nat.lt_or_ge len 100 with hc | hc
  · exact ⟨k, len + 1,
      s5_stability_eval _ n k (len + 1) (by omega) (by omega) (by omega)
        (s5_append_of_lt k len n hk hc),
      by omega, by omega, by omega⟩
  · have h100 : len = 100 := by omega
    subst h100
    exact ⟨k + 1, 100,
      s5_stability_eval _ n (k + 1) 100 (by omega) (by omega) (by omega)
        (s5_append_of_eq k n hk),
      by omega, by omega, by omega⟩

theorem s5_run_zero : s5Run 0 = (false, s5Window 0 1) := by
  norm_num [s5Run, phaseTick, checkPhaseConditions, checkTemperatureStability,
    dequeAppend100, s5Conditions, s5Window, List.range']

theorem s5_invariant (n : ℕ) :
    (s5Run n).1 = false ∧
      ∃ k len, (s5Run n).2 = s5Window k len ∧ k + len = n + 1 ∧ 1 ≤ len ∧ len ≤ 100 := by
  induction n with
  | zero =>
      rw [s5_run_zero]
      exact ⟨rfl, 0, 1, rfl, by omega, by omega, by omega⟩
  | succ m ih =>
      obtain ⟨hp, k, len, hh, hk, h1, h100⟩ := ih
      obtain ⟨k', len', heq, hk', h1', h100'⟩ := s5_stability_step m k len hk h1 h100
      have hsm : s5Run m = (false, s5Window k len) := by
        rcases hsr : s5Run m with ⟨a, b⟩
        rw [hsr] at hp hh
        simp at hp hh
        rw [hp, hh]
      have hstep : s5Run (m + 1)
          = checkPhaseConditions s5Conditions 0 270 (s5Window k len) ((m + 1 : ℕ) : ℚ) 270 none := by
        show phaseTick s5Conditions 0 270 (s5Run m) ((m + 1 : ℕ) : ℚ) 270 none = _
        rw [hsm]
        simp [phaseTick]
      have hcheck : checkPhaseConditions s5Conditions 0 270 (s5Window k len)
          ((m + 1 : ℕ) : ℚ) 270 none = (false, s5Window k' len') := by
        simp only [checkPhaseConditions, s5Conditions, heq]
        norm_num
      rw [hstep, hcheck]
      exact ⟨rfl, k', len', rfl, by omega, h1', h100'⟩

/-- C1: in scenario S5 (phase target 270 °F, conditions
`{stability_range_f: 5, stability_duration_min: 2}`, phase started at
`t = 0`), feeding the control temperature 270 °F — dead centre of the
±5 °F band — at 1 Hz for arbitrarily long never reports the stability
condition satisfied: `pending_phase_transition` is still false after the
ticks at `t = 0 … n` for every `n`, in particular after 120 s of in-range
samples.  The `deque(maxlen=100)` in
`PhaseManager._check_temperature_stability` retains at most 100 samples, so
at 1 Hz the oldest retained sample is at most 99 s old and the
`≥ duration` age check can never pass. -/
theorem C1_s5_pending_never_set : ∀ n : ℕ, (s5Run n).1 = false :=
  fun n => (s5_invariant n).1

/-! ## C3: bumpless transfer -/

theorem pyclamp_of_abs_le (L x : ℚ) (h : |x| ≤ L) :
    pymax (-L) (pymin L x) = x := by
  rw [abs_le] at h
  unfold pymin pymax
  split_ifs <;> linarith [h.1, h.2]

theorem pyclamp_of_le (a b x : ℚ) (h1 : a ≤ x) (h2 : x ≤ b) :
    pymax a (pymin b x) = x := by
  unfold pymin pymax
  split_ifs <;> linarith

theorem bumplessTransfer_eq (s : PIDState) (e : ℚ) (hki : s.ki ≠ 0)
    (h : |rawSeed s e| ≤ s.integral_limit) : bumplessTransfer s e = rawSeed s e := by
  have h1 : bumplessTransfer s e
      = pymax (-s.integral_limit) (pymin s.integral_limit (rawSeed s e)) := by
    simp only [bumplessTransfer, rawSeed, dSeed, if_pos hki]
  rw [h1, pyclamp_of_abs_le _ _ h]

/-- C3 counterexample.  Start from `PIDController(kp=1, ki=1, kd=1)` and call
`compute(10, 10)` at `t = 1` and `t = 2` (so `last_error = 0`,
`last_output = 0`), then raise the setpoint to 12 and call `compute(12, 10)`
at `t = 3` (`dt = 1`, `error = 2`).  The claim's formula re-seeds the
integrator to `(0 − Kp·2 − Kd·(2 − 0)/1)/Ki = −4` and hence predicts the
stored integral `clamp(−4 + 2·1) = −2`; the source's `_bumpless_transfer`
re-seeds to `−2` (its derivative part is zeroed because `last_error = 0`)
and the stored integral is `0`.  So the claim, as stated, is false at this
input. -/
theorem C3_bumpless_counterexample :
    (pidCompute (pidCompute (pidInit 1 1 1) 10 10 1).2 10 10 2).2.last_setpoint = some 10 ∧
    bumplessTransfer (pidCompute (pidCompute (pidInit 1 1 1) 10 10 1).2 10 10 2).2 2 = -2 ∧
    specReseedIntegral (pidCompute (pidCompute (pidInit 1 1 1) 10 10 1).2 10 10 2).2 2 1 = -4 ∧
    (pidCompute (pidCompute (pidCompute (pidInit 1 1 1) 10 10 1).2 10 10 2).2 12 10 3).2.integral
      = 0 ∧
    pymax (-(100 : ℚ))
        (pymin 100
          (specReseedIntegral (pidCompute (pidCompute (pidInit 1 1 1) 10 10 1).2 10 10 2).2 2 1
            + 2 * 1)) = -2 ∧
    (0 : ℚ) ≠ -2 := by
  refine ⟨?_, ?_, ?_, ?_, ?_, by norm_num⟩ <;>
    norm_num [pidCompute, pidInit, bumplessTransfer, specReseedIntegral, pymin, pymax]

/-- C3 (amended): when the setpoint or a gain changed since the previous
`compute` invocation, the integrator is re-seeded to
`(prev_output − Kp_new·error − D_seed)/Ki_new` with
`D_seed = Kd_new·(error − prev_error)` when `prev_error ≠ 0` and `0`
otherwise (no division by `dt` in the seed; `0` when `Ki_new = 0`), then
clamped to `±integral_limit`.  Consequently, when no clamp binds, the new
output is `prev_output + Ki·error·dt + Kd·(error − prev_error)/dt − D_seed`,
the stored integral is the seed plus the fresh `error·dt` accumulation, and
if the error is unchanged the output differs from the previous one exactly
by the new-`dt` integral contribution `Ki·error·dt`. -/
theorem C3_bumpless_amended (s : PIDState) (sp val now t0 : ℚ)
    (hlt : s.last_time = some t0) (hdt : 0 < now - t0)
    (htrig : s.last_setpoint ≠ some sp ∨ s.last_gains ≠ some (s.kp, s.ki, s.kd))
    (hki : s.ki ≠ 0)
    (hseed : |rawSeed s (sp - val)| ≤ s.integral_limit)
    (hsum : |rawSeed s (sp - val) + (sp - val) * (now - t0)| ≤ s.integral_limit)
    (hlo : s.output_min ≤ s.last_output + s.ki * ((sp - val) * (now - t0))
        + s.kd * ((sp - val) - s.last_error) / (now - t0) - dSeed s (sp - val))
    (hhi : s.last_output + s.ki * ((sp - val) * (now - t0))
        + s.kd * ((sp - val) - s.last_error) / (now - t0) - dSeed s (sp - val)
          ≤ s.output_max) :
    (pidCompute s sp val now).1
        = s.last_output + s.ki * ((sp - val) * (now - t0))
          + s.kd * ((sp - val) - s.last_error) / (now - t0) - dSeed s (sp - val) ∧
    (pidCompute s sp val now).2.integral = rawSeed s (sp - val) + (sp - val) * (now - t0) ∧
    (sp - val = s.last_error →
      (pidCompute s sp val now).1 = s.last_output + s.ki * (s.last_error * (now - t0))) := by
  have hdt' : ¬ (now - t0 ≤ 0) := not_le.mpr hdt
  have hbt := bumplessTransfer_eq s (sp - val) hki hseed
  have houtval :
      s.kp * (sp - val) + s.ki * (rawSeed s (sp - val) + (sp - val) * (now - t0))
          + s.kd * ((sp - val) - s.last_error) / (now - t0)
        = s.last_output + s.ki * ((sp - val) * (now - t0))
          + s.kd * ((sp - val) - s.last_error) / (now - t0) - dSeed s (sp - val) := by
    have hks : s.ki * rawSeed s (sp - val)
        = s.last_output - s.kp * (sp - val) - dSeed s (sp - val) := by
      rw [rawSeed]
      field_simp
    have hexp : s.ki * (rawSeed s (sp - val) + (sp - val) * (now - t0))
        = s.ki * rawSeed s (sp - val) + s.ki * ((sp - val) * (now - t0)) := by ring
    rw [hexp, hks]
    ring
  have hfst : (pidCompute s sp val now).1
      = s.last_output + s.ki * ((sp - val) * (now - t0))
        + s.kd * ((sp - val) - s.last_error) / (now - t0) - dSeed s (sp - val) := by
    simp only [pidCompute, hlt]
    rw [if_neg hdt', if_pos htrig]
    simp only [hbt]
    rw [pyclamp_of_abs_le _ _ hsum, houtval]
    exact pyclamp_of_le _ _ _ hlo hhi
  refine ⟨hfst, ?_, ?_⟩
  · simp only [pidCompute, hlt]
    rw [if_neg hdt', if_pos htrig]
    simp only [hbt]
    rw [pyclamp_of_abs_le _ _ hsum]
  · intro herr
    rw [hfst, herr]
    have hd0 : dSeed s s.last_error = 0 := by
      unfold dSeed
      split_ifs <;> simp
    rw [hd0]
    ring

/-- Witness for the amended C3: in `c3WitnessState` the gains just changed
from `(2,1,1)` to `(1,1,1)`; calling `compute(10, 9)` at `t = 2` (so
`dt = 1`, `error = 1 = prev_error`) yields output
`6 = 5 + Ki·error·dt` — the previous output plus exactly the fresh integral
contribution — and stored integral `5`. -/
theorem C3_bumpless_amended_witness :
    (pidCompute c3WitnessState 10 9 2).1 = 6 ∧
    (pidCompute c3WitnessState 10 9 2).2.integral = 5 := by
  have h := C3_bumpless_amended c3WitnessState 10 9 2 1 rfl (by norm_num)
    (Or.inr (by norm_num [c3WitnessState]))
    (by norm_num [c3WitnessState])
    (by norm_num [c3WitnessState, rawSeed, dSeed])
    (by norm_num [c3WitnessState, rawSeed, dSeed])
    (by norm_num [c3WitnessState, dSeed])
    (by norm_num [c3WitnessState, dSeed])
  refine ⟨?_, ?_⟩
  · rw [h.1]
    norm_num [c3WitnessState, dSeed]
  · rw [h.2.1]
    norm_num [c3WitnessState, rawSeed, dSeed]

/-! ## C4: alert debounce -/

theorem alertStep_preserves (s : AlertKeyState) (t : ℚ) (ev : AlertEvent)
    (hev : ev ≠ AlertEvent.condInactive)
    (h1 : ∀ c rest, s.creations = c :: rest → s.debounce = some c)
    (h2 : List.Chain' (fun a b => b + 5 ≤ a) s.creations) :
    (∀ c rest, (alertStep s t ev).creations = c :: rest →
      (alertStep s t ev).debounce = some c) ∧
    List.Chain' (fun a b => b + 5 ≤ a) (alertStep s t ev).creations := by
  cases ev with
  | condInactive => exact absurd rfl hev
  | manualClear =>
      unfold alertStep
      split_ifs <;> exact ⟨h1, h2⟩
  | condActive =>
      by_cases ha : s.isActive = true
      · have hval : alertStep s t AlertEvent.condActive = s := by
          simp [alertStep, ha]
        rw [hval]
        exact ⟨h1, h2⟩
      · cases hd : s.debounce with
        | none =>
            have hval : alertStep s t AlertEvent.condActive
                = { isActive := true, debounce := some t, creations := t :: s.creations } := by
              simp [alertStep, ha, createAlert, hd]
            rw [hval]
            have hcnil : s.creations = [] := by
              cases hc : s.creations with
              | nil => rfl
              | cons c rest =>
                  have hcon := h1 c rest hc
                  rw [hd] at hcon
                  exact absurd hcon (by simp)
            refine ⟨?_, ?_⟩
            · intro c rest h
              simp only [List.cons.injEq] at h
              simp [h.1]
            · rw [hcnil]
              simp
        | some t0 =>
            by_cases ht : t - t0 < 5
            · have hval : alertStep s t AlertEvent.condActive = s := by
                simp [alertStep, ha, createAlert, hd, ht]
              rw [hval]
              exact ⟨h1, h2⟩
            · have hval : alertStep s t AlertEvent.condActive
                  = { isActive := true, debounce := some t, creations := t :: s.creations } := by
                simp [alertStep, ha, createAlert, hd, ht]
              rw [hval]
              refine ⟨?_, ?_⟩
              · intro c rest h
                simp only [List.cons.injEq] at h
                simp [h.1]
              · cases hc : s.creations with
                | nil => simp
                | cons c rest =>
                    have hdc := h1 c rest hc
                    rw [hd] at hdc
                    have hct : t0 = c := by
                      injection hdc
                    have h2c : List.Chain' (fun a b => b + 5 ≤ a) (c :: rest) := by
                      rw [← hc]
                      exact h2
                    show List.Chain' (fun a b => b + 5 ≤ a) (t :: c :: rest)
                    refine List.Chain'.cons ?_ h2c
                    rw [← hct]
                    linarith [not_lt.mp ht]

theorem alertRun_debounce_inv (l : List (ℚ × AlertEvent)) :
    ∀ s : AlertKeyState,
      (∀ x ∈ l, x.2 ≠ AlertEvent.condInactive) →
      (∀ c rest, s.creations = c :: rest → s.debounce = some c) →
      List.Chain' (fun a b => b + 5 ≤ a) s.creations →
      (∀ c rest, (alertRun s l).creations = c :: rest →
        (alertRun s l).debounce = some c) ∧
      List.Chain' (fun a b => b + 5 ≤ a) (alertRun s l).creations := by
  induction l with
  | nil => exact fun s _ h1 h2 => ⟨h1, h2⟩
  | cons x xs ih =>
      intro s hno h1 h2
      have hx : x.2 ≠ AlertEvent.condInactive := hno x (List.mem_cons_self x xs)
      have hstep := alertStep_preserves s x.1 x.2 hx h1 h2
      exact ih (alertStep s x.1 x.2)
        (fun y hy => hno y (List.mem_cons_of_mem x hy)) hstep.1 hstep.2

/-- C4 (amended): for each alert type, along any run of alert-engine steps
in which the key is never cleared automatically (condition-resolution
`_clear_alert`), successive idle→active transitions are at least 5 s apart —
in particular this covers runs in which the alert is manually cleared
between two activations, since the manual `clear_alert` leaves the debounce
timer in place.  (An automatic clear deletes the key's debounce timer, so
after it a re-activation may occur sooner than 5 s after the previous one —
see the counterexample.) -/
theorem C4_debounce_amended (s0 : AlertKeyState) (l : List (ℚ × AlertEvent))
    (hno : ∀ x ∈ l, x.2 ≠ AlertEvent.condInactive)
    (h0 : s0.creations = []) :
    List.Chain' (fun a b => b + 5 ≤ a) (alertRun s0 l).creations := by
  refine (alertRun_debounce_inv l s0 hno ?_ ?_).2
  · intro c rest h
    rw [h0] at h
    exact absurd h (List.noConfusion)
  · rw [h0]
    exact List.chain'_nil

/-- C4 counterexample: `high_temp` goes active at `t = 0` (row created),
the condition resolves at `t = 1` (automatic `_clear_alert`, which deletes
the debounce timer), and goes active again at `t = 2` — a second
idle→active row creation only 2 s after the first, violating the claimed
once-per-5 s bound for sequences with an automatic clear in between. -/
theorem C4_debounce_counterexample :
    (alertRun alertInit
        [((0 : ℚ), AlertEvent.condActive), (1, AlertEvent.condInactive),
          (2, AlertEvent.condActive)]).creations = [2, 0] ∧
    ¬ List.Chain' (fun a b => b + 5 ≤ a)
        (alertRun alertInit
          [((0 : ℚ), AlertEvent.condActive), (1, AlertEvent.condInactive),
            (2, AlertEvent.condActive)]).creations := by
  have h : (alertRun alertInit
      [((0 : ℚ), AlertEvent.condActive), (1, AlertEvent.condInactive),
        (2, AlertEvent.condActive)]).creations = [2, 0] := by
    norm_num [alertRun, alertStep, createAlert, alertInit]
  refine ⟨h, ?_⟩
  rw [h]
  simp only [List.chain'_cons, List.chain'_singleton, and_true]
  norm_num

/-- Witness for the amended C4: activation at `t = 0`, manual clear at
`t = 1`, and the condition firing again at `t = 2` (debounced away — the
timer survived the manual clear) and at `t = 6` (accepted): the two
creations are 6 s apart, satisfying the 5 s bound. -/
theorem C4_debounce_amended_witness :
    (alertRun alertInit
        [((0 : ℚ), AlertEvent.condActive), (1, AlertEvent.manualClear),
          (2, AlertEvent.condActive), (6, AlertEvent.condActive)]).creations = [6, 0] ∧
    List.Chain' (fun a b => b + 5 ≤ a)
      (alertRun alertInit
        [((0 : ℚ), AlertEvent.condActive), (1, AlertEvent.manualClear),
          (2, AlertEvent.condActive), (6, AlertEvent.condActive)]).creations := by
  refine ⟨?_, ?_⟩
  · norm_num [alertRun, alertStep, createAlert, alertInit]
  · refine C4_debounce_amended alertInit _ ?_ rfl
    intro x hx
    simp only [List.mem_cons, List.not_mem_nil, or_false] at hx
    rcases hx with h | h | h | h <;> simp [h]

end AutoSmoke
